import Mathlib

/-! Global configuration builder of haproxy-ingress.

Shallow embedding of `pkg/converters/ingress/annotations/global.go`.
Every `buildGlobal*` method of the Go `updater` mutates the receiver's logger
and the `global` record reachable from its argument; here each one is a
function from the pair (updater, globalData) to the updated pair.
-/

namespace HaproxyIngress

/-! ## Go `int` (64 bit, two's complement) and `fmt` -/

/-- Smallest value of a Go `int` on a 64-bit platform. -/
def minInt : Int := -(2 ^ 63)

/-- Largest value of a Go `int` on a 64-bit platform. -/
def maxInt : Int := 2 ^ 63 - 1

/-- The values a Go `int` can hold. -/
def IsGoInt (x : Int) : Prop := minInt ≤ x ∧ x ≤ maxInt

instance (x : Int) : Decidable (IsGoInt x) := by
  unfold IsGoInt
  infer_instance

/-- Reduction of a mathematical integer to the 64-bit two's complement range. -/
def wrapInt (x : Int) : Int := (x + 2 ^ 63) % 2 ^ 64 - 2 ^ 63

/-- Go `a + b` on `int`: addition wraps around. -/
def goAdd (a b : Int) : Int := wrapInt (a + b)

/-- Go `a - b` on `int`: subtraction wraps around. -/
def goSub (a b : Int) : Int := wrapInt (a - b)

/-- The text `fmt.Sprintf("%v", i)` gives for an `int`: decimal digits, with a
leading minus sign for a negative value. -/
def fmtInt (i : Int) : String :=
  if i < 0 then "-" ++ Nat.repr i.natAbs else Nat.repr i.natAbs

/-! ## Logger -/

/-- Severity of a logged message: which logger method was called. -/
inductive Severity where
  | Warn
  | Error
deriving DecidableEq, Repr

/-- One logged message, already formatted. -/
structure LogEntry where
  level : Severity
  msg : String
deriving DecidableEq, Repr

/-- The logging sink: the messages logged so far, oldest first. -/
structure Logger where
  entries : List LogEntry
deriving DecidableEq, Repr

/-- The call `logger.Warn(format, args...)`, with `msg` the formatted text. -/
def Logger.Warn (l : Logger) (msg : String) : Logger :=
  { entries := l.entries ++ [{ level := Severity.Warn, msg := msg }] }

/-- The call `logger.Error(format, args...)`, with `msg` the formatted text. -/
def Logger.Error (l : Logger) (msg : String) : Logger :=
  { entries := l.entries ++ [{ level := Severity.Error, msg := msg }] }

/-! ## Configuration keys, mapper and secret cache

The declarations of `ingtypes`, of the mapper, of the cache and of
`hatypes.Global` are not part of `global.go`; they are given here by what the
builder reads from and writes to them.
-/

/-- The `ingtypes` key constants read by the global builder. -/
inductive Key where
  | GlobalNbprocBalance
  | GlobalNbprocSSL
  | GlobalNbthread
  | GlobalSyslogEndpoint
  | GlobalSyslogFormat
  | GlobalHTTPLogFormat
  | GlobalHTTPSLogFormat
  | GlobalSyslogTag
  | GlobalTCPLogFormat
  | HostTimeoutClient
  | HostTimeoutClientFin
  | BackTimeoutConnect
  | BackTimeoutHTTPRequest
  | BackTimeoutKeepAlive
  | BackTimeoutQueue
  | BackTimeoutServer
  | BackTimeoutServerFin
  | GlobalTimeoutStop
  | BackTimeoutTunnel
  | GlobalSSLCiphers
  | GlobalSSLOptions
  | GlobalSSLDHParam
  | GlobalSSLDHDefaultMaxSize
  | GlobalSSLEngine
  | GlobalSSLModeAsync
  | GlobalSSLHeadersPrefix
  | GlobalModsecurityEndpoints
  | GlobalModsecurityTimeoutHello
  | GlobalModsecurityTimeoutIdle
  | GlobalModsecurityTimeoutProcessing
  | GlobalForwardfor
  | GlobalConfigGlobal
  | GlobalConfigDefaults
  | GlobalConfigFrontend
deriving DecidableEq, Repr

/-- What `mapper.Get(key)` returns: the raw text `Value` and the results of the
typed accessors `Int()` and `Bool()`. -/
structure ConfigValue where
  Value : String
  Int : Int
  Bool : Bool
deriving DecidableEq, Repr

/-- The key resolver of one build pass. -/
structure Mapper where
  Get : Key → ConfigValue

/-- A file of the secret cache. -/
structure File where
  Filename : String
deriving DecidableEq, Repr

/-- The secret cache: `GetDHSecretPath` gives the file of a named secret or an
error, kept as the text `%v` prints for it. -/
structure Cache where
  GetDHSecretPath : String → Except String File

/-! ## The output record `hatypes.Global` -/

structure ProcsConfig where
  Nbproc : Int
  Nbthread : Int
  NbprocBalance : Int
  NbprocSSL : Int
  BindprocBalance : String
  BindprocSSL : String
  CPUMap : String
deriving DecidableEq, Repr

structure SyslogConfig where
  Endpoint : String
  Format : String
  HTTPLogFormat : String
  HTTPSLogFormat : String
  Tag : String
  TCPLogFormat : String
deriving DecidableEq, Repr

structure TimeoutConfig where
  Client : String
  ClientFin : String
  Connect : String
  HTTPRequest : String
  KeepAlive : String
  Queue : String
  Server : String
  ServerFin : String
  Stop : String
  Tunnel : String
deriving DecidableEq, Repr

structure DHParamConfig where
  Filename : String
  DefaultMaxSize : Int
deriving DecidableEq, Repr

structure SSLConfig where
  Ciphers : String
  Options : String
  DHParam : DHParamConfig
  Engine : String
  ModeAsync : Bool
  HeadersPrefix : String
deriving DecidableEq, Repr

structure ModSecurityTimeoutConfig where
  Hello : String
  Idle : String
  Processing : String
deriving DecidableEq, Repr

structure ModSecurityConfig where
  Endpoints : List String
  Timeout : ModSecurityTimeoutConfig
deriving DecidableEq, Repr

structure Global where
  Procs : ProcsConfig
  Syslog : SyslogConfig
  Timeout : TimeoutConfig
  SSL : SSLConfig
  ModSecurity : ModSecurityConfig
  ForwardFor : String
  CustomConfig : List String
  CustomDefaults : List String
  CustomFrontend : List String
deriving DecidableEq, Repr

/-- The Go zero value of `hatypes.Global`: the fresh record of a build pass. -/
def Global.zero : Global :=
  { Procs := { Nbproc := 0, Nbthread := 0, NbprocBalance := 0, NbprocSSL := 0,
               BindprocBalance := "", BindprocSSL := "", CPUMap := "" }
    Syslog := { Endpoint := "", Format := "", HTTPLogFormat := "", HTTPSLogFormat := "",
                Tag := "", TCPLogFormat := "" }
    Timeout := { Client := "", ClientFin := "", Connect := "", HTTPRequest := "",
                 KeepAlive := "", Queue := "", Server := "", ServerFin := "",
                 Stop := "", Tunnel := "" }
    SSL := { Ciphers := "", Options := "",
             DHParam := { Filename := "", DefaultMaxSize := 0 },
             Engine := "", ModeAsync := false, HeadersPrefix := "" }
    ModSecurity := { Endpoints := [], Timeout := { Hello := "", Idle := "", Processing := "" } }
    ForwardFor := ""
    CustomConfig := []
    CustomDefaults := []
    CustomFrontend := [] }

/-- The argument of every `buildGlobal*` method: the record being built and the
key resolver. -/
structure globalData where
  global : Global
  mapper : Mapper

/-- The receiver of every `buildGlobal*` method. `logger` and `cache` are its
Go fields. `validateTime`, `Split` and `LineToSlice` stand for the method
`updater.validateTime` and the functions `utils.Split` and `utils.LineToSlice`,
whose bodies are outside `global.go`: `validateTime` gives the string it
returns and the messages it logs. -/
structure updater where
  logger : Logger
  cache : Cache
  validateTime : ConfigValue → String × List LogEntry
  Split : String → String → List String
  LineToSlice : String → List String

/-- The call `c.validateTime(cfg)`: its returned string, and the updater with
the messages of the call appended to the log. -/
def updater.callValidateTime (c : updater) (cfg : ConfigValue) : String × updater :=
  ((c.validateTime cfg).1,
    { c with logger := { entries := c.logger.entries ++ (c.validateTime cfg).2 } })

/-! ## The derivation steps -/

/-- Go `updater.buildGlobalProc`. Each Go variable that is reassigned is a
chain of numbered names here, one per assignment, in the order of the source:
`balance0` is the raw value, `balance1` the value after the first clamp,
`balance` the value after the second. -/
def updater.buildGlobalProc (c : updater) (d : globalData) : updater × globalData :=
  let balance0 := (d.mapper.Get Key.GlobalNbprocBalance).Int
  let logger1 :=
    if balance0 < 1 then
      c.logger.Warn
        ("invalid value of nbproc-balance configmap option (" ++ fmtInt balance0 ++ "), using 1")
    else c.logger
  let balance1 := if balance0 < 1 then 1 else balance0
  let logger2 :=
    if balance1 > 1 then
      logger1.Warn
        ("nbproc-balance configmap option (" ++ fmtInt balance1
          ++ ") greater than 1 is not yet supported, using 1")
    else logger1
  let balance := if balance1 > 1 then 1 else balance1
  let ssl0 := (d.mapper.Get Key.GlobalNbprocSSL).Int
  let logger3 :=
    if ssl0 < 0 then
      logger2.Warn ("invalid value of nbproc-ssl configmap option (" ++ fmtInt ssl0 ++ "), using 0")
    else logger2
  let ssl := if ssl0 < 0 then 0 else ssl0
  let procs := goAdd balance ssl
  let threads0 := (d.mapper.Get Key.GlobalNbthread).Int
  let logger4 :=
    if threads0 < 1 then
      logger3.Warn
        ("invalid value of nbthread configmap option (" ++ fmtInt threads0 ++ "), using 1")
    else logger3
  let threads := if threads0 < 1 then 1 else threads0
  let bindprocBalance := if balance > 1 then "1-" ++ fmtInt balance else "1"
  let bindprocSSL :=
    if ssl = 0 then bindprocBalance
    else if ssl = 1 then fmtInt (goAdd balance 1)
    else if ssl > 1 then fmtInt (goAdd balance 1) ++ "-" ++ fmtInt procs
    else ""
  let cpumap :=
    if threads > 1 then
      if procs = 1 then "auto:1/1-" ++ fmtInt threads ++ " 0-" ++ fmtInt (goSub threads 1)
      else ""
    else if procs > 1 then "auto:1-" ++ fmtInt procs ++ " 0-" ++ fmtInt (goSub procs 1)
    else ""
  ({ c with logger := logger4 },
    { d with global := { d.global with Procs :=
        { Nbproc := procs
          Nbthread := threads
          NbprocBalance := balance
          NbprocSSL := ssl
          BindprocBalance := bindprocBalance
          BindprocSSL := bindprocSSL
          CPUMap := cpumap } } })

/-- Go `updater.buildGlobalSyslog`. -/
def updater.buildGlobalSyslog (c : updater) (d : globalData) : updater × globalData :=
  (c, { d with global := { d.global with Syslog :=
    { Endpoint := (d.mapper.Get Key.GlobalSyslogEndpoint).Value
      Format := (d.mapper.Get Key.GlobalSyslogFormat).Value
      HTTPLogFormat := (d.mapper.Get Key.GlobalHTTPLogFormat).Value
      HTTPSLogFormat := (d.mapper.Get Key.GlobalHTTPSLogFormat).Value
      Tag := (d.mapper.Get Key.GlobalSyslogTag).Value
      TCPLogFormat := (d.mapper.Get Key.GlobalTCPLogFormat).Value } } })

/-- Go `updater.buildGlobalTimeout`: ten calls of `validateTime`, in the order
of the source. -/
def updater.buildGlobalTimeout (c : updater) (d : globalData) : updater × globalData :=
  let (client, c) := c.callValidateTime (d.mapper.Get Key.HostTimeoutClient)
  let (clientFin, c) := c.callValidateTime (d.mapper.Get Key.HostTimeoutClientFin)
  let (connect, c) := c.callValidateTime (d.mapper.Get Key.BackTimeoutConnect)
  let (httpRequest, c) := c.callValidateTime (d.mapper.Get Key.BackTimeoutHTTPRequest)
  let (keepAlive, c) := c.callValidateTime (d.mapper.Get Key.BackTimeoutKeepAlive)
  let (queue, c) := c.callValidateTime (d.mapper.Get Key.BackTimeoutQueue)
  let (server, c) := c.callValidateTime (d.mapper.Get Key.BackTimeoutServer)
  let (serverFin, c) := c.callValidateTime (d.mapper.Get Key.BackTimeoutServerFin)
  let (stop, c) := c.callValidateTime (d.mapper.Get Key.GlobalTimeoutStop)
  let (tunnel, c) := c.callValidateTime (d.mapper.Get Key.BackTimeoutTunnel)
  (c, { d with global := { d.global with Timeout :=
    { Client := client
      ClientFin := clientFin
      Connect := connect
      HTTPRequest := httpRequest
      KeepAlive := keepAlive
      Queue := queue
      Server := server
      ServerFin := serverFin
      Stop := stop
      Tunnel := tunnel } } })

/-- Go `updater.buildGlobalSSL`. `DHParam.Filename` is assigned only when the
DH-param name is non-empty and the cache resolves it. -/
def updater.buildGlobalSSL (c : updater) (d : globalData) : updater × globalData :=
  let sslDHParam := (d.mapper.Get Key.GlobalSSLDHParam).Value
  let (logger, filename) :=
    if sslDHParam ≠ "" then
      match c.cache.GetDHSecretPath sslDHParam with
      | Except.ok dhFile => (c.logger, dhFile.Filename)
      | Except.error err =>
        (c.logger.Error ("error reading DH params: " ++ err), d.global.SSL.DHParam.Filename)
    else (c.logger, d.global.SSL.DHParam.Filename)
  ({ c with logger := logger },
    { d with global := { d.global with SSL :=
        { Ciphers := (d.mapper.Get Key.GlobalSSLCiphers).Value
          Options := (d.mapper.Get Key.GlobalSSLOptions).Value
          DHParam :=
            { Filename := filename
              DefaultMaxSize := (d.mapper.Get Key.GlobalSSLDHDefaultMaxSize).Int }
          Engine := (d.mapper.Get Key.GlobalSSLEngine).Value
          ModeAsync := (d.mapper.Get Key.GlobalSSLModeAsync).Bool
          HeadersPrefix := (d.mapper.Get Key.GlobalSSLHeadersPrefix).Value } } })

/-- Go `updater.buildGlobalModSecurity`. -/
def updater.buildGlobalModSecurity (c : updater) (d : globalData) : updater × globalData :=
  let endpoints := c.Split (d.mapper.Get Key.GlobalModsecurityEndpoints).Value ","
  let (hello, c) := c.callValidateTime (d.mapper.Get Key.GlobalModsecurityTimeoutHello)
  let (idle, c) := c.callValidateTime (d.mapper.Get Key.GlobalModsecurityTimeoutIdle)
  let (processing, c) := c.callValidateTime (d.mapper.Get Key.GlobalModsecurityTimeoutProcessing)
  (c, { d with global := { d.global with ModSecurity :=
    { Endpoints := endpoints
      Timeout := { Hello := hello, Idle := idle, Processing := processing } } } })

/-- The three words of the pattern of `forwardRegex`, the regular expression
`^(add|ignore|ifmissing)$`. -/
def forwardRegex : List String := ["add", "ignore", "ifmissing"]

/-- Go `forwardRegex.MatchString`. The pattern is anchored at both ends of the
text (without the `m` flag, `^` and `$` are the start and the end of the text),
and between the anchors stands an alternation of literal words: a text matches
exactly when it is one of the words. -/
def MatchString (words : List String) (s : String) : Bool :=
  words.any (fun w => s == w)

/-- Go `updater.buildGlobalForwardFor`. -/
def updater.buildGlobalForwardFor (c : updater) (d : globalData) : updater × globalData :=
  let forwardFor := (d.mapper.Get Key.GlobalForwardfor).Value
  if MatchString forwardRegex forwardFor then
    (c, { d with global := { d.global with ForwardFor := forwardFor } })
  else
    let logger :=
      if forwardFor ≠ "" then
        c.logger.Warn ("Invalid forwardfor value option on configmap: '" ++ forwardFor
          ++ "'. Using 'add' instead")
      else c.logger
    ({ c with logger := logger }, { d with global := { d.global with ForwardFor := "add" } })

/-- Go `updater.buildGlobalCustomConfig`. -/
def updater.buildGlobalCustomConfig (c : updater) (d : globalData) : updater × globalData :=
  (c, { d with global := { d.global with
    CustomConfig := c.LineToSlice (d.mapper.Get Key.GlobalConfigGlobal).Value
    CustomDefaults := c.LineToSlice (d.mapper.Get Key.GlobalConfigDefaults).Value
    CustomFrontend := c.LineToSlice (d.mapper.Get Key.GlobalConfigFrontend).Value } })

/-! ## Concrete sources for evaluation -/

/-- A key resolver whose three topology keys hold the given integers and whose
other keys are absent (zero values). -/
def procMapper (balance ssl threads : Int) : Mapper :=
  { Get := fun k =>
      match k with
      | Key.GlobalNbprocBalance => { Value := "", Int := balance, Bool := false }
      | Key.GlobalNbprocSSL => { Value := "", Int := ssl, Bool := false }
      | Key.GlobalNbthread => { Value := "", Int := threads, Bool := false }
      | _ => { Value := "", Int := 0, Bool := false } }

/-- A key resolver in which only the key `key` is present, with raw text `v`. -/
def textMapper (key : Key) (v : String) : Mapper :=
  { Get := fun k =>
      if k = key then { Value := v, Int := 0, Bool := false }
      else { Value := "", Int := 0, Bool := false } }

/-- A secret cache in which no secret exists. -/
def emptyCache : Cache :=
  { GetDHSecretPath := fun name => Except.error ("secret not found: " ++ name) }

/-- A secret cache that resolves every name to a file under `/dh/`. -/
def fullCache : Cache :=
  { GetDHSecretPath := fun name => Except.ok { Filename := "/dh/" ++ name ++ ".pem" } }

/-- An updater with an empty log, the given cache, and stand-ins for the
functions outside `global.go`: a time validator that accepts every text and
splitters that return the text whole. -/
def newUpdater (cache : Cache) : updater :=
  { logger := { entries := [] }
    cache := cache
    validateTime := fun cfg => (cfg.Value, [])
    Split := fun s _ => [s]
    LineToSlice := fun s => [s] }

/-- The topology sub-record `buildGlobalProc` writes for the raw triple, from a
fresh record. -/
def procsOf (balance ssl threads : Int) : ProcsConfig :=
  ((newUpdater emptyCache).buildGlobalProc
    { global := Global.zero, mapper := procMapper balance ssl threads }).2.global.Procs

/-- The messages `buildGlobalProc` logs for the raw triple. -/
def procLogOf (balance ssl threads : Int) : List LogEntry :=
  ((newUpdater emptyCache).buildGlobalProc
    { global := Global.zero, mapper := procMapper balance ssl threads }).1.logger.entries

/-! ## Projections used in the statements -/

/-- The raw `nbproc-balance` value of the source. -/
def rawBalance (d : globalData) : Int := (d.mapper.Get Key.GlobalNbprocBalance).Int

/-- The raw `nbproc-ssl` value of the source. -/
def rawSSL (d : globalData) : Int := (d.mapper.Get Key.GlobalNbprocSSL).Int

/-- The raw `nbthread` value of the source. -/
def rawThreads (d : globalData) : Int := (d.mapper.Get Key.GlobalNbthread).Int

/-- The topology sub-record after `buildGlobalProc`. -/
def procsAfter (c : updater) (d : globalData) : ProcsConfig :=
  (c.buildGlobalProc d).2.global.Procs

/-- The log after `buildGlobalProc`. -/
def procLogAfter (c : updater) (d : globalData) : List LogEntry :=
  (c.buildGlobalProc d).1.logger.entries

/-- The raw `forwardfor` text of the source. -/
def rawForwardFor (d : globalData) : String := (d.mapper.Get Key.GlobalForwardfor).Value

/-- The raw DH-param name of the source. -/
def rawDHParam (d : globalData) : String := (d.mapper.Get Key.GlobalSSLDHParam).Value

/-- The `ForwardFor` field and the log after `buildGlobalForwardFor` runs, with an
empty log, over a fresh record and a source whose `forwardfor` text is `s`. -/
def forwardForOf (s : String) : String × List LogEntry :=
  (((newUpdater emptyCache).buildGlobalForwardFor
      { global := Global.zero, mapper := textMapper Key.GlobalForwardfor s }).2.global.ForwardFor,
   ((newUpdater emptyCache).buildGlobalForwardFor
      { global := Global.zero, mapper := textMapper Key.GlobalForwardfor s }).1.logger.entries)

/-- The syntax of a bind-process expression as the specification gives it: the
decimal text of a positive integer, or `low-high` with `low` and `high`
positive integers and `low ≤ high`. -/
def IsBindRange (s : String) : Prop :=
  (∃ n : Int, 0 < n ∧ s = fmtInt n)
    ∨ (∃ lo hi : Int, 0 < lo ∧ lo ≤ hi ∧ s = fmtInt lo ++ "-" ++ fmtInt hi)

/-- A source for the TLS step: a DH-param name and values for the copied keys. -/
def sslMapper : Mapper :=
  { Get := fun k =>
      match k with
      | Key.GlobalSSLDHParam => { Value := "dh", Int := 0, Bool := false }
      | Key.GlobalSSLCiphers => { Value := "ECDHE-RSA-AES128-GCM-SHA256", Int := 0, Bool := false }
      | Key.GlobalSSLDHDefaultMaxSize => { Value := "2048", Int := 2048, Bool := false }
      | Key.GlobalSSLModeAsync => { Value := "true", Int := 0, Bool := true }
      | _ => { Value := "", Int := 0, Bool := false } }

/-- The TLS sub-record and the log after `buildGlobalSSL` runs, with an empty log
and the given cache, over a fresh record and the source `sslMapper`. -/
def sslOf (cache : Cache) : SSLConfig × List LogEntry :=
  (((newUpdater cache).buildGlobalSSL { global := Global.zero, mapper := sslMapper }).2.global.SSL,
   ((newUpdater cache).buildGlobalSSL
      { global := Global.zero, mapper := sslMapper }).1.logger.entries)

/-! ## The seven steps as one family -/

/-- The seven derivation steps of `global.go`, in the order of the file. -/
inductive Step where
  | Proc
  | Syslog
  | Timeout
  | SSL
  | ModSecurity
  | ForwardFor
  | CustomConfig
deriving DecidableEq, Repr

/-- The method a step stands for. -/
def Step.run : Step → updater → globalData → updater × globalData
  | Step.Proc, c, d => c.buildGlobalProc d
  | Step.Syslog, c, d => c.buildGlobalSyslog d
  | Step.Timeout, c, d => c.buildGlobalTimeout d
  | Step.SSL, c, d => c.buildGlobalSSL d
  | Step.ModSecurity, c, d => c.buildGlobalModSecurity d
  | Step.ForwardFor, c, d => c.buildGlobalForwardFor d
  | Step.CustomConfig, c, d => c.buildGlobalCustomConfig d

/-- The seven steps, each once, in the order of the file. -/
def allSteps : List Step :=
  [Step.Proc, Step.Syslog, Step.Timeout, Step.SSL, Step.ModSecurity, Step.ForwardFor,
    Step.CustomConfig]

/-- Steps called one after the other on the same receiver and the same argument,
as the statements of a Go function body are: each call sees the logger and the
record the calls before it left. -/
def runSteps : List Step → updater → globalData → updater × globalData
  | [], c, d => (c, d)
  | s :: rest, c, d => runSteps rest (s.run c d).1 (s.run c d).2

/-- Two updaters that differ at most in their logger. -/
def updater.sameDeps (c c' : updater) : Prop :=
  c.cache = c'.cache ∧ c.validateTime = c'.validateTime ∧ c.Split = c'.Split
    ∧ c.LineToSlice = c'.LineToSlice

/-- Two records agree on the fields the step assigns: the sub-record `Procs` for
`buildGlobalProc`, `Syslog` for `buildGlobalSyslog`, `Timeout` for
`buildGlobalTimeout`, `SSL` for `buildGlobalSSL`, `ModSecurity` for
`buildGlobalModSecurity`, the field `ForwardFor` for `buildGlobalForwardFor`
and the three `Custom*` fields for `buildGlobalCustomConfig`. -/
def Step.sameOwn : Step → Global → Global → Prop
  | Step.Proc, g, g' => g.Procs = g'.Procs
  | Step.Syslog, g, g' => g.Syslog = g'.Syslog
  | Step.Timeout, g, g' => g.Timeout = g'.Timeout
  | Step.SSL, g, g' => g.SSL = g'.SSL
  | Step.ModSecurity, g, g' => g.ModSecurity = g'.ModSecurity
  | Step.ForwardFor, g, g' => g.ForwardFor = g'.ForwardFor
  | Step.CustomConfig, g, g' =>
    g.CustomConfig = g'.CustomConfig ∧ g.CustomDefaults = g'.CustomDefaults
      ∧ g.CustomFrontend = g'.CustomFrontend

/-- The record with `SSL.DHParam.Filename` blanked: every field but that one. -/
def Global.eraseDHFilename (g : Global) : Global :=
  { g with SSL := { g.SSL with DHParam := { g.SSL.DHParam with Filename := "" } } }

/-! ## Duration fields -/

/-- The keys of the thirteen duration fields: the ten read by `buildGlobalTimeout`
and the three read by `buildGlobalModSecurity`. -/
def durationKeys : List Key :=
  [Key.HostTimeoutClient, Key.HostTimeoutClientFin, Key.BackTimeoutConnect,
    Key.BackTimeoutHTTPRequest, Key.BackTimeoutKeepAlive, Key.BackTimeoutQueue,
    Key.BackTimeoutServer, Key.BackTimeoutServerFin, Key.GlobalTimeoutStop,
    Key.BackTimeoutTunnel, Key.GlobalModsecurityTimeoutHello,
    Key.GlobalModsecurityTimeoutIdle, Key.GlobalModsecurityTimeoutProcessing]

/-- The duration field the source assigns from the key, after the step that
assigns it: a `Timeout` field after `buildGlobalTimeout`, a `ModSecurity.Timeout`
field after `buildGlobalModSecurity`. The empty string for any other key. -/
def durationAfter (c : updater) (d : globalData) : Key → String
  | Key.HostTimeoutClient => (c.buildGlobalTimeout d).2.global.Timeout.Client
  | Key.HostTimeoutClientFin => (c.buildGlobalTimeout d).2.global.Timeout.ClientFin
  | Key.BackTimeoutConnect => (c.buildGlobalTimeout d).2.global.Timeout.Connect
  | Key.BackTimeoutHTTPRequest => (c.buildGlobalTimeout d).2.global.Timeout.HTTPRequest
  | Key.BackTimeoutKeepAlive => (c.buildGlobalTimeout d).2.global.Timeout.KeepAlive
  | Key.BackTimeoutQueue => (c.buildGlobalTimeout d).2.global.Timeout.Queue
  | Key.BackTimeoutServer => (c.buildGlobalTimeout d).2.global.Timeout.Server
  | Key.BackTimeoutServerFin => (c.buildGlobalTimeout d).2.global.Timeout.ServerFin
  | Key.GlobalTimeoutStop => (c.buildGlobalTimeout d).2.global.Timeout.Stop
  | Key.BackTimeoutTunnel => (c.buildGlobalTimeout d).2.global.Timeout.Tunnel
  | Key.GlobalModsecurityTimeoutHello =>
    (c.buildGlobalModSecurity d).2.global.ModSecurity.Timeout.Hello
  | Key.GlobalModsecurityTimeoutIdle =>
    (c.buildGlobalModSecurity d).2.global.ModSecurity.Timeout.Idle
  | Key.GlobalModsecurityTimeoutProcessing =>
    (c.buildGlobalModSecurity d).2.global.ModSecurity.Timeout.Processing
  | _ => ""

/-! ## The process indices of a bind-process expression

The builder only prints bind-process expressions. What one denotes is read
here as the data model of the specification gives it: a single 1-based index
`N`, or the inclusive range `N-M`.
-/

/-- The number a list of decimal digits stands for. -/
def decimalValue (cs : List Char) : Nat :=
  cs.foldl (fun acc ch => 10 * acc + (ch.toNat - 48)) 0

/-- A non-empty list of decimal digits read as a number; `none` for anything else. -/
def parseDecimal (cs : List Char) : Option Nat :=
  if cs ≠ [] ∧ cs.all Char.isDigit = true then some (decimalValue cs) else none

/-- The text before the first dash, and the text after it when there is a dash. -/
def splitDash : List Char → List Char × Option (List Char)
  | [] => ([], none)
  | ch :: cs =>
    if ch = '-' then ([], some cs)
    else ((ch :: (splitDash cs).1), (splitDash cs).2)

/-- The process indices a bind-process expression denotes: the index `N` for the
text `N`, the indices `N` to `M` inclusive for the text `N-M`, and no index for
a text that is neither. -/
def bindprocIndices (s : String) : Finset Int :=
  match splitDash s.data with
  | (a, none) =>
    match parseDecimal a with
    | some n => {(n : Int)}
    | none => ∅
  | (a, some b) =>
    match parseDecimal a, parseDecimal b with
    | some lo, some hi => Finset.Icc (lo : Int) (hi : Int)
    | _, _ => ∅

/-! ## Helper lemmas: Go integers -/

theorem wrapInt_of_isGoInt (x : Int) (h : IsGoInt x) : wrapInt x = x := by
  unfold IsGoInt minInt maxInt at h
  unfold wrapInt
  omega

theorem isGoInt_wrapInt (x : Int) : IsGoInt (wrapInt x) := by
  unfold IsGoInt minInt maxInt wrapInt
  omega

theorem goAdd_one_of_lt (s : Int) (h0 : 0 ≤ s) (h1 : s < maxInt) : goAdd 1 s = 1 + s := by
  unfold goAdd
  apply wrapInt_of_isGoInt
  unfold IsGoInt minInt
  unfold maxInt at *
  omega

theorem goSub_one_of_pos (t : Int) (h0 : 1 ≤ t) (h1 : t ≤ maxInt) : goSub t 1 = t - 1 := by
  unfold goSub
  apply wrapInt_of_isGoInt
  unfold IsGoInt minInt
  unfold maxInt at *
  omega

/-! ## Helper lemmas: the fields `buildGlobalProc` writes -/

theorem proc_NbprocBalance (c : updater) (d : globalData) :
    (procsAfter c d).NbprocBalance = 1 := by
  simp only [procsAfter, updater.buildGlobalProc]
  split_ifs <;> omega

theorem proc_NbprocSSL (c : updater) (d : globalData) :
    (procsAfter c d).NbprocSSL = max (rawSSL d) 0 := by
  simp only [procsAfter, rawSSL, updater.buildGlobalProc]
  split_ifs <;> omega

theorem proc_Nbthread (c : updater) (d : globalData) :
    (procsAfter c d).Nbthread = max (rawThreads d) 1 := by
  simp only [procsAfter, rawThreads, updater.buildGlobalProc]
  split_ifs <;> omega

theorem proc_Nbproc (c : updater) (d : globalData) :
    (procsAfter c d).Nbproc = goAdd (procsAfter c d).NbprocBalance (procsAfter c d).NbprocSSL := by
  simp only [procsAfter, updater.buildGlobalProc]

theorem proc_BindprocBalance (c : updater) (d : globalData) :
    (procsAfter c d).BindprocBalance = "1" := by
  simp only [procsAfter, updater.buildGlobalProc]
  split_ifs <;> first | rfl | omega

theorem proc_BindprocSSL (c : updater) (d : globalData) :
    (procsAfter c d).BindprocSSL =
      if (procsAfter c d).NbprocSSL = 0 then "1"
      else if (procsAfter c d).NbprocSSL = 1 then "2"
      else "2-" ++ fmtInt (procsAfter c d).Nbproc := by
  simp only [procsAfter, updater.buildGlobalProc]
  generalize (d.mapper.Get Key.GlobalNbprocBalance).Int = b
  generalize (d.mapper.Get Key.GlobalNbprocSSL).Int = s
  split_ifs <;>
    first
    | omega
    | rfl
    | (have hb : b = 1 := by omega
       subst hb
       rfl)

theorem proc_CPUMap (c : updater) (d : globalData) :
    (procsAfter c d).CPUMap =
      if (procsAfter c d).Nbthread > 1 then
        if (procsAfter c d).Nbproc = 1 then
          "auto:1/1-" ++ fmtInt (procsAfter c d).Nbthread ++ " 0-"
            ++ fmtInt (goSub (procsAfter c d).Nbthread 1)
        else ""
      else if (procsAfter c d).Nbproc > 1 then
        "auto:1-" ++ fmtInt (procsAfter c d).Nbproc ++ " 0-"
          ++ fmtInt (goSub (procsAfter c d).Nbproc 1)
      else "" := by
  simp only [procsAfter, updater.buildGlobalProc]

/-- The messages a run of `buildGlobalProc` appends to the log, in order. -/
theorem proc_log (c : updater) (d : globalData) :
    procLogAfter c d = c.logger.entries
      ++ (if rawBalance d < 1 then
            [{ level := Severity.Warn
               msg := "invalid value of nbproc-balance configmap option ("
                 ++ fmtInt (rawBalance d) ++ "), using 1" }]
          else [])
      ++ (if rawBalance d > 1 then
            [{ level := Severity.Warn
               msg := "nbproc-balance configmap option (" ++ fmtInt (rawBalance d)
                 ++ ") greater than 1 is not yet supported, using 1" }]
          else [])
      ++ (if rawSSL d < 0 then
            [{ level := Severity.Warn
               msg := "invalid value of nbproc-ssl configmap option ("
                 ++ fmtInt (rawSSL d) ++ "), using 0" }]
          else [])
      ++ (if rawThreads d < 1 then
            [{ level := Severity.Warn
               msg := "invalid value of nbthread configmap option ("
                 ++ fmtInt (rawThreads d) ++ "), using 1" }]
          else []) := by
  simp only [procLogAfter, rawBalance, rawSSL, rawThreads, updater.buildGlobalProc, Logger.Warn]
  generalize (d.mapper.Get Key.GlobalNbprocBalance).Int = b
  generalize (d.mapper.Get Key.GlobalNbprocSSL).Int = s
  generalize (d.mapper.Get Key.GlobalNbthread).Int = t
  split_ifs <;> first | omega | simp

/-! ## Helper lemmas: decimal text -/

theorem digitChar_ne_dash : ∀ m : Nat, m < 10 → Nat.digitChar m ≠ '-' := by decide

theorem toDigitsCore_ne_dash (fuel : Nat) : ∀ (n : Nat) (ds : List Char),
    (∀ ch ∈ ds, ch ≠ '-') → ∀ ch ∈ Nat.toDigitsCore 10 fuel n ds, ch ≠ '-' := by
  induction fuel with
  | zero =>
    intro n ds h
    simpa [Nat.toDigitsCore] using h
  | succ k ih =>
    intro n ds h
    have hd : ∀ ch ∈ Nat.digitChar (n % 10) :: ds, ch ≠ '-' := by
      intro ch hch
      rcases List.mem_cons.mp hch with rfl | hch
      · exact digitChar_ne_dash _ (Nat.mod_lt _ (by decide))
      · exact h ch hch
    unfold Nat.toDigitsCore
    simp only []
    split_ifs
    · exact hd
    · exact ih _ _ hd

theorem repr_ne_dash (n : Nat) : ∀ ch ∈ (Nat.repr n).data, ch ≠ '-' := by
  unfold Nat.repr Nat.toDigits
  exact toDigitsCore_ne_dash _ _ _ (by simp)

theorem fmtInt_pos_ne_dash (n : Int) (h : 0 < n) : ∀ ch ∈ (fmtInt n).data, ch ≠ '-' := by
  unfold fmtInt
  rw [if_neg (by omega)]
  exact repr_ne_dash _

/-- The text written for the largest raw `nbproc-ssl` is no bind-process expression. -/
theorem not_isBindRange_overflow : ¬ IsBindRange "2--9223372036854775808" := by
  rintro (⟨n, hn, h⟩ | ⟨lo, hi, hlo, hle, h⟩)
  · have hd := fmtInt_pos_ne_dash n hn
    rw [← h] at hd
    exact hd '-' (by decide) rfl
  · have h1 := fmtInt_pos_ne_dash lo hlo
    have h2 := fmtInt_pos_ne_dash hi (by omega)
    have hdata := congrArg String.data h
    simp only [String.data_append] at hdata
    generalize (fmtInt lo).data = l1 at h1 hdata
    generalize (fmtInt hi).data = l2 at h2 hdata
    match l1, h1, hdata with
    | [], _, hdata => simp at hdata
    | [_], _, hdata =>
      simp at hdata
      exact h2 '-' (by rw [← hdata.2]; simp) rfl
    | _ :: b :: _, h1, hdata =>
      simp at hdata
      exact h1 b (by simp) hdata.2.1.symm

/-! ## Process topology -/

/-- C1: after `buildGlobalProc`, `Nbproc` is the Go sum `NbprocBalance + NbprocSSL`
for every source; the Go sum is the sum of the integers whenever the raw
`nbproc-ssl` is below the largest `int`. -/
theorem buildGlobalProc_nbproc_sum (c : updater) (d : globalData) :
    (procsAfter c d).Nbproc = goAdd (procsAfter c d).NbprocBalance (procsAfter c d).NbprocSSL
    ∧ (rawSSL d < maxInt →
        (procsAfter c d).Nbproc = (procsAfter c d).NbprocBalance + (procsAfter c d).NbprocSSL) := by
  refine ⟨proc_Nbproc c d, fun h => ?_⟩
  rw [proc_Nbproc, proc_NbprocBalance, proc_NbprocSSL]
  apply goAdd_one_of_lt
  · omega
  · unfold maxInt at *
    omega

/-- C2: `NbprocBalance` is 1 for every raw `nbproc-balance`; a raw value below 1
logs the invalid-value warning and a raw value above 1 logs the not-yet-supported
warning, each carrying the decimal text of the raw value. -/
theorem buildGlobalProc_balance_clamped (c : updater) (d : globalData) :
    (procsAfter c d).NbprocBalance = 1
    ∧ (rawBalance d < 1 →
        { level := Severity.Warn
          msg := "invalid value of nbproc-balance configmap option ("
            ++ fmtInt (rawBalance d) ++ "), using 1" } ∈ procLogAfter c d)
    ∧ (rawBalance d > 1 →
        { level := Severity.Warn
          msg := "nbproc-balance configmap option (" ++ fmtInt (rawBalance d)
            ++ ") greater than 1 is not yet supported, using 1" } ∈ procLogAfter c d) := by
  refine ⟨proc_NbprocBalance c d, fun h => ?_, fun h => ?_⟩
  · rw [proc_log, if_pos h]
    simp
  · rw [proc_log, if_pos h]
    simp

/-- C3: after `buildGlobalProc`, `NbprocBalance ≥ 1`, `NbprocSSL ≥ 0` and
`Nbthread ≥ 1` for every source, and a raw `nbproc-ssl` below 0 gives
`NbprocSSL = 0`. -/
theorem buildGlobalProc_bounds (c : updater) (d : globalData) :
    (procsAfter c d).NbprocBalance ≥ 1
    ∧ (procsAfter c d).NbprocSSL ≥ 0
    ∧ (procsAfter c d).Nbthread ≥ 1
    ∧ (rawSSL d < 0 → (procsAfter c d).NbprocSSL = 0) := by
  rw [proc_NbprocBalance, proc_NbprocSSL, proc_Nbthread]
  refine ⟨by omega, by omega, by omega, fun h => by omega⟩

/-- C4: with `balance`, `ssl` the clamped counts and `procs` the stored `Nbproc`
(the Go sum `balance + ssl`, which is the sum of the integers when the raw
`nbproc-ssl` is below the largest `int`): `BindprocSSL` is `BindprocBalance` when
`ssl = 0`, the decimal text of `balance + 1` when `ssl = 1`, and
`balance + 1`, a dash, `procs` when `ssl > 1`. Raw balance 1, ssl 0 gives
`"1"` and `"1"`; raw balance 2, ssl 2 gives `"2-3"`. -/
theorem buildGlobalProc_bindprocSSL (c : updater) (d : globalData) :
    ((procsAfter c d).NbprocSSL = 0 →
        (procsAfter c d).BindprocSSL = (procsAfter c d).BindprocBalance)
    ∧ ((procsAfter c d).NbprocSSL = 1 →
        (procsAfter c d).BindprocSSL = fmtInt ((procsAfter c d).NbprocBalance + 1))
    ∧ ((procsAfter c d).NbprocSSL > 1 →
        (procsAfter c d).BindprocSSL =
          fmtInt ((procsAfter c d).NbprocBalance + 1) ++ "-" ++ fmtInt (procsAfter c d).Nbproc)
    ∧ ((procsAfter c d).NbprocSSL > 1 → rawSSL d < maxInt →
        (procsAfter c d).BindprocSSL =
          fmtInt ((procsAfter c d).NbprocBalance + 1) ++ "-"
            ++ fmtInt ((procsAfter c d).NbprocBalance + (procsAfter c d).NbprocSSL))
    ∧ (∀ threads : Int, (procsOf 1 0 threads).BindprocBalance = "1"
        ∧ (procsOf 1 0 threads).BindprocSSL = "1")
    ∧ (∀ threads : Int, (procsOf 2 2 threads).BindprocSSL = "2-3") := by
  have hsum := fun h => goAdd_one_of_lt (max (rawSSL d) 0) (by omega) h
  rw [proc_BindprocSSL, proc_BindprocBalance, proc_NbprocBalance, proc_Nbproc,
    proc_NbprocBalance, proc_NbprocSSL]
  refine ⟨fun h => by rw [if_pos h], fun h => ?_, fun h => ?_, fun h hlt => ?_, ?_, ?_⟩
  · rw [if_neg (by omega), if_pos h]
    rfl
  · rw [if_neg (by omega), if_neg (by omega)]
    rfl
  · rw [if_neg (by omega), if_neg (by omega), hsum (by unfold maxInt at *; omega)]
    rfl
  · intro threads
    exact ⟨proc_BindprocBalance _ _, by
      have h := proc_BindprocSSL (newUpdater emptyCache)
        { global := Global.zero, mapper := procMapper 1 0 threads }
      rw [proc_NbprocSSL] at h
      exact h⟩
  · intro threads
    unfold procsOf
    rw [← procsAfter, proc_BindprocSSL, proc_Nbproc, proc_NbprocBalance, proc_NbprocSSL]
    simp only [rawSSL, procMapper]
    decide

/-- C6: with `threads` the clamped thread count and `procs` the stored `Nbproc`, for
every source whose raw `nbthread` is a Go `int`: `threads > 1` and `procs = 1`
give the thread map `auto:1/1-threads 0-(threads-1)`; `threads ≤ 1` and
`procs > 1` give the process map `auto:1-procs 0-(procs-1)`. Threads 4 with
one process gives `"auto:1/1-4 0-3"`; one thread with three processes gives
`"auto:1-3 0-2"`. -/
theorem buildGlobalProc_cpumap (c : updater) (d : globalData) (ht : IsGoInt (rawThreads d)) :
    ((procsAfter c d).Nbthread > 1 → (procsAfter c d).Nbproc = 1 →
        (procsAfter c d).CPUMap =
          "auto:1/1-" ++ fmtInt (procsAfter c d).Nbthread ++ " 0-"
            ++ fmtInt ((procsAfter c d).Nbthread - 1))
    ∧ ((procsAfter c d).Nbthread ≤ 1 → (procsAfter c d).Nbproc > 1 →
        (procsAfter c d).CPUMap =
          "auto:1-" ++ fmtInt (procsAfter c d).Nbproc ++ " 0-"
            ++ fmtInt ((procsAfter c d).Nbproc - 1))
    ∧ (∀ balance : Int, (procsOf balance 0 4).Nbproc = 1
        ∧ (procsOf balance 0 4).CPUMap = "auto:1/1-4 0-3")
    ∧ (∀ balance : Int, (procsOf balance 2 1).Nbproc = 3
        ∧ (procsOf balance 2 1).CPUMap = "auto:1-3 0-2") := by
  refine ⟨fun h1 h2 => ?_, fun h1 h2 => ?_, fun balance => ?_, fun balance => ?_⟩
  · rw [proc_CPUMap, if_pos h1, if_pos h2, goSub_one_of_pos]
    · omega
    · rw [proc_Nbthread]
      unfold IsGoInt maxInt at *
      omega
  · rw [proc_CPUMap, if_neg (by omega), if_pos h2, goSub_one_of_pos]
    · omega
    · rw [proc_Nbproc]
      exact (isGoInt_wrapInt _).2
  · have hp : (procsOf balance 0 4).Nbproc = 1 := by
      unfold procsOf
      rw [← procsAfter, proc_Nbproc, proc_NbprocBalance, proc_NbprocSSL]
      rfl
    refine ⟨hp, ?_⟩
    unfold procsOf at *
    rw [← procsAfter] at *
    rw [proc_CPUMap, hp, proc_Nbthread]
    simp only [rawThreads, procMapper]
    decide
  · have hp : (procsOf balance 2 1).Nbproc = 3 := by
      unfold procsOf
      rw [← procsAfter, proc_Nbproc, proc_NbprocBalance, proc_NbprocSSL]
      rfl
    refine ⟨hp, ?_⟩
    unfold procsOf at *
    rw [← procsAfter] at *
    rw [proc_CPUMap, hp, proc_Nbthread]
    simp only [rawThreads, procMapper]
    decide

/-- C6, at a concrete source: raw balance 1, ssl 0, threads 4. -/
theorem buildGlobalProc_cpumap_witness :
    IsGoInt 4 ∧ (procsOf 1 0 4).CPUMap = "auto:1/1-4 0-3" :=
  ⟨by decide,
   (buildGlobalProc_cpumap (newUpdater emptyCache)
      { global := Global.zero, mapper := procMapper 1 0 4 } (by decide)).1
      (by decide) (by decide)⟩

/-- For a raw `nbproc-ssl` below the largest `int`, both bind-process strings are
bind-process expressions. -/
theorem bindproc_isBindRange_of_lt (c : updater) (d : globalData) (h : rawSSL d < maxInt) :
    IsBindRange (procsAfter c d).BindprocBalance ∧ IsBindRange (procsAfter c d).BindprocSSL := by
  have hsum := goAdd_one_of_lt (max (rawSSL d) 0) (by omega) (by unfold maxInt at *; omega)
  rw [proc_BindprocBalance, proc_BindprocSSL, proc_Nbproc, proc_NbprocBalance, proc_NbprocSSL,
    hsum]
  refine ⟨Or.inl ⟨1, by decide, rfl⟩, ?_⟩
  split_ifs with h0 h1
  · exact Or.inl ⟨1, by decide, rfl⟩
  · exact Or.inl ⟨2, by decide, rfl⟩
  · exact Or.inr ⟨2, 1 + max (rawSSL d) 0, by decide, by omega, rfl⟩

/-- C5: at raw `nbproc-ssl = 9223372036854775807`, a Go `int`, the sum
`balance + ssl` wraps to the smallest `int` and `BindprocSSL` is
`"2--9223372036854775808"`, which is neither the decimal text of a positive
integer nor a `low-high` range of positive integers. -/
theorem bindprocSSL_overflow_eval :
    IsGoInt 9223372036854775807
    ∧ (procsOf 1 9223372036854775807 1).Nbproc = -9223372036854775808
    ∧ (procsOf 1 9223372036854775807 1).BindprocSSL = "2--9223372036854775808"
    ∧ ¬ IsBindRange (procsOf 1 9223372036854775807 1).BindprocSSL := by
  refine ⟨by decide, by decide, by decide, ?_⟩
  have h : (procsOf 1 9223372036854775807 1).BindprocSSL = "2--9223372036854775808" := by
    decide
  rw [h]
  exact not_isBindRange_overflow

/-- Both axes scaled, or neither: `CPUMap` is empty, for every source. -/
theorem cpumap_empty_of_both_or_neither (c : updater) (d : globalData)
    (h : ((procsAfter c d).Nbthread > 1 ∧ (procsAfter c d).Nbproc > 1)
      ∨ ((procsAfter c d).Nbthread = 1 ∧ (procsAfter c d).Nbproc = 1)) :
    (procsAfter c d).CPUMap = "" := by
  rw [proc_CPUMap]
  rcases h with ⟨h1, h2⟩ | ⟨h1, h2⟩
  · rw [if_pos h1, if_neg (by omega)]
  · rw [if_neg (by omega), if_neg (by omega)]

theorem append_ne_empty (a b : String) (h : a ≠ "") : a ++ b ≠ "" := by
  intro hab
  apply h
  have hd := congrArg String.data hab
  simp only [String.data_append] at hd
  have : a.data = [] := (List.append_eq_nil.mp hd).1
  exact String.ext this

/-- For a raw `nbproc-ssl` below the largest `int`, `CPUMap` is non-empty exactly
when one and only one of `threads > 1`, `procs > 1` holds. -/
theorem cpumap_nonempty_iff_of_lt (c : updater) (d : globalData) (h : rawSSL d < maxInt) :
    (procsAfter c d).CPUMap ≠ ""
      ↔ (((procsAfter c d).Nbthread > 1 ∧ ¬ (procsAfter c d).Nbproc > 1)
          ∨ (¬ (procsAfter c d).Nbthread > 1 ∧ (procsAfter c d).Nbproc > 1)) := by
  have hsum := goAdd_one_of_lt (max (rawSSL d) 0) (by omega) (by unfold maxInt at *; omega)
  have ht := proc_Nbthread c d
  have hp : (procsAfter c d).Nbproc = 1 + max (rawSSL d) 0 := by
    rw [proc_Nbproc, proc_NbprocBalance, proc_NbprocSSL, hsum]
  rw [proc_CPUMap]
  split_ifs with h1 h2 h3
  · constructor
    · intro _
      exact Or.inl ⟨h1, by omega⟩
    · intro _
      exact append_ne_empty _ _ (append_ne_empty _ _ (append_ne_empty _ _ (by decide)))
  · constructor
    · intro hne
      exact absurd rfl hne
    · rintro (⟨_, h4⟩ | ⟨h4, _⟩)
      · omega
      · exact absurd h1 h4
  · constructor
    · intro _
      exact Or.inr ⟨h1, h3⟩
    · intro _
      exact append_ne_empty _ _ (append_ne_empty _ _ (append_ne_empty _ _ (by decide)))
  · constructor
    · intro hne
      exact absurd rfl hne
    · rintro (⟨h4, _⟩ | ⟨_, h4⟩)
      · exact absurd h4 h1
      · exact absurd h4 h3

/-- C7: at raw `nbproc-ssl = 9223372036854775807` the stored `Nbproc` is the
smallest `int`. With 4 threads one and only one of `threads > 1`, `procs > 1`
holds and `CPUMap` is empty; with 1 thread the sum of the integers
`NbprocBalance + NbprocSSL` is above 1, the thread count is not, and
`CPUMap` is empty as well. -/
theorem cpumap_overflow_eval :
    ((procsOf 1 9223372036854775807 4).Nbthread > 1
      ∧ ¬ (procsOf 1 9223372036854775807 4).Nbproc > 1
      ∧ (procsOf 1 9223372036854775807 4).CPUMap = "")
    ∧ (¬ (procsOf 1 9223372036854775807 1).Nbthread > 1
      ∧ (procsOf 1 9223372036854775807 1).NbprocBalance
          + (procsOf 1 9223372036854775807 1).NbprocSSL > 1
      ∧ (procsOf 1 9223372036854775807 1).CPUMap = "") := by
  decide

/-! ## Forwarded-for policy -/

theorem matchString_forwardRegex (s : String) :
    MatchString forwardRegex s = true ↔ (s = "add" ∨ s = "ignore" ∨ s = "ifmissing") := by
  simp [MatchString, forwardRegex]

/-- C8: after `buildGlobalForwardFor`, `ForwardFor` is `"add"`, `"ignore"` or
`"ifmissing"`, for every source and so for every raw text. -/
theorem buildGlobalForwardFor_allowed (c : updater) (d : globalData) :
    (c.buildGlobalForwardFor d).2.global.ForwardFor = "add"
    ∨ (c.buildGlobalForwardFor d).2.global.ForwardFor = "ignore"
    ∨ (c.buildGlobalForwardFor d).2.global.ForwardFor = "ifmissing" := by
  unfold updater.buildGlobalForwardFor
  by_cases hm : MatchString forwardRegex (d.mapper.Get Key.GlobalForwardfor).Value = true
  · simp only [hm, if_true]
    exact (matchString_forwardRegex _).mp hm
  · simp only [hm]
    exact Or.inl rfl

/-- C9: a raw text that is one of the three words is copied and nothing is logged;
any other raw text gives `"add"`, with exactly one warning carrying the raw
text appended to the log when the text is non-empty and nothing logged when
it is empty. `"add"` gives `"add"` and no log, `"bogus"` gives `"add"` and one
warning, the empty text gives `"add"` and no log. -/
theorem buildGlobalForwardFor_result (c : updater) (d : globalData) :
    ((rawForwardFor d = "add" ∨ rawForwardFor d = "ignore" ∨ rawForwardFor d = "ifmissing") →
        (c.buildGlobalForwardFor d).2.global.ForwardFor = rawForwardFor d
        ∧ (c.buildGlobalForwardFor d).1.logger.entries = c.logger.entries)
    ∧ (¬ (rawForwardFor d = "add" ∨ rawForwardFor d = "ignore" ∨ rawForwardFor d = "ifmissing") →
        (c.buildGlobalForwardFor d).2.global.ForwardFor = "add"
        ∧ (rawForwardFor d ≠ "" →
            (c.buildGlobalForwardFor d).1.logger.entries = c.logger.entries ++
              [{ level := Severity.Warn
                 msg := "Invalid forwardfor value option on configmap: '" ++ rawForwardFor d
                   ++ "'. Using 'add' instead" }])
        ∧ (rawForwardFor d = "" →
            (c.buildGlobalForwardFor d).1.logger.entries = c.logger.entries))
    ∧ forwardForOf "add" = ("add", [])
    ∧ forwardForOf "bogus" = ("add",
        [{ level := Severity.Warn
           msg := "Invalid forwardfor value option on configmap: 'bogus'. Using 'add' instead" }])
    ∧ forwardForOf "" = ("add", []) := by
  refine ⟨fun h => ?_, fun h => ?_, by decide, by decide, by decide⟩
  · have hm := (matchString_forwardRegex _).mpr h
    unfold rawForwardFor at *
    constructor <;> simp only [updater.buildGlobalForwardFor, hm, if_true]
  · have hm : ¬ MatchString forwardRegex (rawForwardFor d) = true :=
      fun hm => h ((matchString_forwardRegex _).mp hm)
    unfold rawForwardFor at *
    unfold updater.buildGlobalForwardFor
    simp only [hm]
    refine ⟨rfl, fun hne => ?_, fun he => ?_⟩
    · simp only [if_pos hne, Logger.Warn]
      rfl
    · simp only [he]
      rfl

/-! ## TLS -/

/-- C10: for a source with a non-empty DH-param name. When the cache fails on the
name, `buildGlobalSSL` does not assign `DHParam.Filename`, so it is still empty
after the step on a record where it was empty (as in the fresh record of a
build pass), and the log grows by exactly one entry, of severity `Error`. When
the cache resolves the name, `Filename` is the resolved file name and nothing
is logged. In both cases `Ciphers`, `Options`, `Engine`, `HeadersPrefix`,
`ModeAsync` and `DHParam.DefaultMaxSize` are the values of the source. -/
theorem buildGlobalSSL_dhparam (c : updater) (d : globalData) (hname : rawDHParam d ≠ "") :
    (∀ err : String, c.cache.GetDHSecretPath (rawDHParam d) = Except.error err →
        ((c.buildGlobalSSL d).2.global.SSL.DHParam.Filename = d.global.SSL.DHParam.Filename)
        ∧ (d.global.SSL.DHParam.Filename = "" →
            (c.buildGlobalSSL d).2.global.SSL.DHParam.Filename = "")
        ∧ (c.buildGlobalSSL d).1.logger.entries = c.logger.entries ++
            [{ level := Severity.Error, msg := "error reading DH params: " ++ err }])
    ∧ (∀ dhFile : File, c.cache.GetDHSecretPath (rawDHParam d) = Except.ok dhFile →
        (c.buildGlobalSSL d).2.global.SSL.DHParam.Filename = dhFile.Filename
        ∧ (c.buildGlobalSSL d).1.logger.entries = c.logger.entries)
    ∧ (c.buildGlobalSSL d).2.global.SSL.Ciphers = (d.mapper.Get Key.GlobalSSLCiphers).Value
    ∧ (c.buildGlobalSSL d).2.global.SSL.Options = (d.mapper.Get Key.GlobalSSLOptions).Value
    ∧ (c.buildGlobalSSL d).2.global.SSL.Engine = (d.mapper.Get Key.GlobalSSLEngine).Value
    ∧ (c.buildGlobalSSL d).2.global.SSL.HeadersPrefix
        = (d.mapper.Get Key.GlobalSSLHeadersPrefix).Value
    ∧ (c.buildGlobalSSL d).2.global.SSL.ModeAsync = (d.mapper.Get Key.GlobalSSLModeAsync).Bool
    ∧ (c.buildGlobalSSL d).2.global.SSL.DHParam.DefaultMaxSize
        = (d.mapper.Get Key.GlobalSSLDHDefaultMaxSize).Int := by
  unfold rawDHParam at *
  refine ⟨fun err herr => ?_, fun dhFile hok => ?_, rfl, rfl, rfl, rfl, rfl, rfl⟩
  · have hf : (c.buildGlobalSSL d).2.global.SSL.DHParam.Filename
        = d.global.SSL.DHParam.Filename := by
      simp only [updater.buildGlobalSSL, if_pos hname, herr]
    refine ⟨hf, fun h0 => hf.trans h0, ?_⟩
    simp only [updater.buildGlobalSSL, if_pos hname, herr, Logger.Error]
  · constructor
    · simp only [updater.buildGlobalSSL, if_pos hname, hok]
    · simp only [updater.buildGlobalSSL, if_pos hname, hok]

/-- C10, at a concrete source: the DH-param name `dh` over a fresh record, with a
cache that knows no secret and with a cache that resolves every name. -/
theorem buildGlobalSSL_dhparam_witness :
    rawDHParam { global := Global.zero, mapper := sslMapper } ≠ ""
    ∧ (sslOf emptyCache).1.DHParam.Filename = ""
    ∧ (sslOf emptyCache).2
        = [{ level := Severity.Error, msg := "error reading DH params: secret not found: dh" }]
    ∧ (sslOf fullCache).1.DHParam.Filename = "/dh/dh.pem"
    ∧ (sslOf fullCache).2 = []
    ∧ (sslOf emptyCache).1.Ciphers = "ECDHE-RSA-AES128-GCM-SHA256"
    ∧ (sslOf emptyCache).1.DHParam.DefaultMaxSize = 2048 :=
  ⟨by decide,
   ((buildGlobalSSL_dhparam (newUpdater emptyCache)
      { global := Global.zero, mapper := sslMapper } (by decide)).1
      "secret not found: dh" rfl).2.1 rfl,
   ((buildGlobalSSL_dhparam (newUpdater emptyCache)
      { global := Global.zero, mapper := sslMapper } (by decide)).1
      "secret not found: dh" rfl).2.2,
   ((buildGlobalSSL_dhparam (newUpdater fullCache)
      { global := Global.zero, mapper := sslMapper } (by decide)).2.1
      { Filename := "/dh/dh.pem" } rfl).1,
   ((buildGlobalSSL_dhparam (newUpdater fullCache)
      { global := Global.zero, mapper := sslMapper } (by decide)).2.1
      { Filename := "/dh/dh.pem" } rfl).2,
   (buildGlobalSSL_dhparam (newUpdater emptyCache)
      { global := Global.zero, mapper := sslMapper } (by decide)).2.2.1,
   (buildGlobalSSL_dhparam (newUpdater emptyCache)
      { global := Global.zero, mapper := sslMapper } (by decide)).2.2.2.2.2.2.2⟩
/-! ## Helper lemmas: what each step does to the record -/

theorem step_mapper (s : Step) (c : updater) (d : globalData) :
    (s.run c d).2.mapper = d.mapper := by
  cases s
  · rfl
  · rfl
  · rfl
  · rfl
  · rfl
  · simp only [Step.run, updater.buildGlobalForwardFor]
    split_ifs <;> rfl
  · rfl

theorem step_sameDeps (s : Step) (c : updater) (d : globalData) :
    (s.run c d).1.sameDeps c := by
  cases s
  · exact ⟨rfl, rfl, rfl, rfl⟩
  · exact ⟨rfl, rfl, rfl, rfl⟩
  · exact ⟨rfl, rfl, rfl, rfl⟩
  · exact ⟨rfl, rfl, rfl, rfl⟩
  · exact ⟨rfl, rfl, rfl, rfl⟩
  · simp only [Step.run, updater.buildGlobalForwardFor]
    split_ifs <;> exact ⟨rfl, rfl, rfl, rfl⟩
  · exact ⟨rfl, rfl, rfl, rfl⟩

theorem forwardFor_snd (c : updater) (d : globalData) :
    (c.buildGlobalForwardFor d).2 =
      { d with global := { d.global with ForwardFor :=
          (if MatchString forwardRegex (d.mapper.Get Key.GlobalForwardfor).Value then
            (d.mapper.Get Key.GlobalForwardfor).Value
          else "add") } } := by
  simp only [updater.buildGlobalForwardFor]
  split_ifs <;> rfl

theorem ssl_snd (c : updater) (d : globalData) :
    (c.buildGlobalSSL d).2 =
      { d with global := { d.global with SSL :=
        { Ciphers := (d.mapper.Get Key.GlobalSSLCiphers).Value
          Options := (d.mapper.Get Key.GlobalSSLOptions).Value
          DHParam :=
            { Filename :=
                (if (d.mapper.Get Key.GlobalSSLDHParam).Value ≠ "" then
                  match c.cache.GetDHSecretPath (d.mapper.Get Key.GlobalSSLDHParam).Value with
                  | Except.ok dhFile => dhFile.Filename
                  | Except.error _ => d.global.SSL.DHParam.Filename
                else d.global.SSL.DHParam.Filename)
              DefaultMaxSize := (d.mapper.Get Key.GlobalSSLDHDefaultMaxSize).Int }
          Engine := (d.mapper.Get Key.GlobalSSLEngine).Value
          ModeAsync := (d.mapper.Get Key.GlobalSSLModeAsync).Bool
          HeadersPrefix := (d.mapper.Get Key.GlobalSSLHeadersPrefix).Value } } } := by
  simp only [updater.buildGlobalSSL]
  split_ifs
  · split <;> rfl
  · rfl

theorem step_congr (s : Step) (c c' : updater) (d : globalData) (h : c.sameDeps c') :
    (s.run c d).2 = (s.run c' d).2 := by
  obtain ⟨l, k, v, sp, lt⟩ := c
  obtain ⟨l', k', v', sp', lt'⟩ := c'
  obtain ⟨h1, h2, h3, h4⟩ := h
  simp only at h1 h2 h3 h4
  subst h1 h2 h3 h4
  cases s
  · rfl
  · rfl
  · rfl
  · simp only [Step.run]
    rw [ssl_snd, ssl_snd]
  · rfl
  · simp only [Step.run]
    rw [forwardFor_snd, forwardFor_snd]
  · rfl

theorem sameDeps_symm (c c' : updater) (h : c.sameDeps c') : c'.sameDeps c :=
  ⟨h.1.symm, h.2.1.symm, h.2.2.1.symm, h.2.2.2.symm⟩

theorem sameDeps_trans (a b c : updater) (h : a.sameDeps b) (h' : b.sameDeps c) :
    a.sameDeps c :=
  ⟨h.1.trans h'.1, h.2.1.trans h'.2.1, h.2.2.1.trans h'.2.2.1, h.2.2.2.trans h'.2.2.2⟩

theorem runSteps_congr (order : List Step) : ∀ (c c' : updater) (d : globalData),
    c.sameDeps c' → (runSteps order c d).2 = (runSteps order c' d).2 := by
  induction order with
  | nil =>
    intro c c' d _
    rfl
  | cons s rest ih =>
    intro c c' d h
    simp only [runSteps]
    rw [step_congr s c c' d h]
    exact ih _ _ _ (sameDeps_trans _ _ _ (step_sameDeps s c d)
      (sameDeps_trans _ _ _ h (sameDeps_symm _ _ (step_sameDeps s c' d))))

theorem runSteps_sameDeps (order : List Step) : ∀ (c : updater) (d : globalData),
    (runSteps order c d).1.sameDeps c := by
  induction order with
  | nil =>
    intro c d
    exact ⟨rfl, rfl, rfl, rfl⟩
  | cons s rest ih =>
    intro c d
    simp only [runSteps]
    exact sameDeps_trans _ _ _ (ih _ _) (step_sameDeps s c d)

theorem steps_commute_same (s t : Step) (c : updater) (d : globalData) :
    (t.run c (s.run c d).2).2.global = (s.run c (t.run c d).2).2.global := by
  cases s <;> cases t <;> simp only [Step.run, forwardFor_snd, ssl_snd] <;> rfl

/-! ## The steps together -/

/-- C11: running the seven steps twice over the same source and cache, each run on
a fresh record and the second run with the logger the first one left, gives
the same record. The same holds for every sequence of steps, every common
starting record, and every logger the second run may start with. -/
theorem buildGlobal_idempotent (order : List Step) (c : updater) (g : Global) (m : Mapper) :
    (runSteps allSteps (runSteps allSteps c { global := Global.zero, mapper := m }).1
        { global := Global.zero, mapper := m }).2.global
      = (runSteps allSteps c { global := Global.zero, mapper := m }).2.global
    ∧ (runSteps order (runSteps order c { global := g, mapper := m }).1
        { global := g, mapper := m }).2.global
      = (runSteps order c { global := g, mapper := m }).2.global
    ∧ (∀ l : Logger, (runSteps order { c with logger := l } { global := g, mapper := m }).2.global
      = (runSteps order c { global := g, mapper := m }).2.global) := by
  refine ⟨?_, ?_, fun l => ?_⟩
  · rw [runSteps_congr allSteps _ c _ (runSteps_sameDeps allSteps c _)]
  · rw [runSteps_congr order _ c _ (runSteps_sameDeps order c _)]
  · exact congrArg globalData.global (runSteps_congr order _ c _ ⟨rfl, rfl, rfl, rfl⟩)

/-- C12: for any two steps, every updater and every starting record, calling them
in either order gives the same record. A step assigns none of the fields of
another step, and the fields a step assigns are the same whether or not
another step ran before it. -/
theorem steps_commute (s t : Step) (c : updater) (d : globalData) :
    (t.run (s.run c d).1 (s.run c d).2).2.global = (s.run (t.run c d).1 (t.run c d).2).2.global
    ∧ (s ≠ t → s.sameOwn (t.run c d).2.global d.global)
    ∧ (s ≠ t → t.sameOwn (t.run (s.run c d).1 (s.run c d).2).2.global (t.run c d).2.global) := by
  have hs := step_congr t (s.run c d).1 c (s.run c d).2 (step_sameDeps s c d)
  have ht := step_congr s (t.run c d).1 c (t.run c d).2 (step_sameDeps t c d)
  rw [hs, ht]
  refine ⟨steps_commute_same s t c d, ?_, ?_⟩
  · cases s <;> cases t <;> intro h <;>
      first
      | exact absurd rfl h
      | (simp only [Step.run, forwardFor_snd, ssl_snd, Step.sameOwn]; rfl)
      | (simp only [Step.run, forwardFor_snd, ssl_snd, Step.sameOwn]; exact ⟨rfl, rfl, rfl⟩)
      | (simp only [Step.run, forwardFor_snd, ssl_snd, Step.sameOwn]; exact ⟨trivial, trivial, trivial⟩)
      | simp only [Step.run, forwardFor_snd, ssl_snd, Step.sameOwn]
  · cases s <;> cases t <;> intro h <;>
      first
      | exact absurd rfl h
      | (simp only [Step.run, forwardFor_snd, ssl_snd, Step.sameOwn]; rfl)
      | (simp only [Step.run, forwardFor_snd, ssl_snd, Step.sameOwn]; exact ⟨rfl, rfl, rfl⟩)
      | simp only [Step.run, forwardFor_snd, ssl_snd, Step.sameOwn]

/-- C18: `buildGlobalSSL` never clears `SSL.DHParam.Filename`. With an empty DH-param
name the field keeps the value of the starting record, nothing is logged and
the outcome is the same for every cache; when the cache fails the field keeps
the value of the starting record as well. For each of the seven steps, the
fields it assigns, `SSL.DHParam.Filename` set aside, are the same for every
starting record, every logger and every cache. -/
theorem buildGlobalSSL_keeps_filename (c : updater) (d : globalData) :
    (rawDHParam d = "" →
        (c.buildGlobalSSL d).2.global.SSL.DHParam.Filename = d.global.SSL.DHParam.Filename
        ∧ (c.buildGlobalSSL d).1.logger.entries = c.logger.entries
        ∧ (∀ k : Cache,
            ({ c with cache := k }.buildGlobalSSL d).2 = (c.buildGlobalSSL d).2
            ∧ ({ c with cache := k }.buildGlobalSSL d).1.logger = (c.buildGlobalSSL d).1.logger))
    ∧ (∀ err : String, c.cache.GetDHSecretPath (rawDHParam d) = Except.error err →
        (c.buildGlobalSSL d).2.global.SSL.DHParam.Filename = d.global.SSL.DHParam.Filename)
    ∧ (∀ (s : Step) (g : Global) (l : Logger) (k : Cache),
        s.sameOwn (s.run c d).2.global.eraseDHFilename
          (s.run { c with logger := l, cache := k }
            { d with global := g }).2.global.eraseDHFilename) := by
  unfold rawDHParam
  refine ⟨fun h => ⟨?_, ?_, fun k => ⟨?_, ?_⟩⟩, fun err herr => ?_, fun s g l k => ?_⟩
  · simp only [updater.buildGlobalSSL, h, ne_eq, not_true_eq_false, if_false]
  · simp only [updater.buildGlobalSSL, h, ne_eq, not_true_eq_false, if_false]
  · simp only [updater.buildGlobalSSL, h, ne_eq, not_true_eq_false, if_false]
  · simp only [updater.buildGlobalSSL, h, ne_eq, not_true_eq_false, if_false]
  · simp only [updater.buildGlobalSSL, herr]
    split_ifs <;> rfl
  · cases s <;>
      first
      | (simp only [Step.run, forwardFor_snd, ssl_snd, Step.sameOwn, Global.eraseDHFilename]; rfl)
      | (simp only [Step.run, forwardFor_snd, ssl_snd, Step.sameOwn, Global.eraseDHFilename]
         exact ⟨rfl, rfl, rfl⟩)
      | simp only [Step.run, forwardFor_snd, ssl_snd, Step.sameOwn, Global.eraseDHFilename]

/-! ## Process topology, continued -/

/-- C14: the log after `buildGlobalProc` is the log before followed by one warning
for each violated input, in the order balance, ssl, threads, each carrying
the decimal text of the offending raw value; their number is the number of
violated inputs among `balance ≠ 1`, `ssl < 0`, `threads < 1`, and raw
balance 1, ssl at least 0, threads at least 1 logs nothing. -/
theorem buildGlobalProc_warnings (c : updater) (d : globalData) :
    procLogAfter c d = c.logger.entries
      ++ (if rawBalance d < 1 then
            [{ level := Severity.Warn
               msg := "invalid value of nbproc-balance configmap option ("
                 ++ fmtInt (rawBalance d) ++ "), using 1" }]
          else if rawBalance d > 1 then
            [{ level := Severity.Warn
               msg := "nbproc-balance configmap option (" ++ fmtInt (rawBalance d)
                 ++ ") greater than 1 is not yet supported, using 1" }]
          else [])
      ++ (if rawSSL d < 0 then
            [{ level := Severity.Warn
               msg := "invalid value of nbproc-ssl configmap option ("
                 ++ fmtInt (rawSSL d) ++ "), using 0" }]
          else [])
      ++ (if rawThreads d < 1 then
            [{ level := Severity.Warn
               msg := "invalid value of nbthread configmap option ("
                 ++ fmtInt (rawThreads d) ++ "), using 1" }]
          else [])
    ∧ (procLogAfter c d).length = c.logger.entries.length
        + ((if rawBalance d ≠ 1 then 1 else 0) + (if rawSSL d < 0 then 1 else 0)
          + (if rawThreads d < 1 then 1 else 0))
    ∧ (rawBalance d = 1 → 0 ≤ rawSSL d → 1 ≤ rawThreads d →
        procLogAfter c d = c.logger.entries) := by
  rw [proc_log]
  refine ⟨?_, ?_, fun hb hs ht => ?_⟩
  · split_ifs <;> first | omega | simp
  · split_ifs <;> first | omega | simp
  · rw [if_neg (by omega), if_neg (by omega), if_neg (by omega), if_neg (by omega)]
    simp

/-- C15: a raw `nbproc-ssl` of at least 0 and a raw `nbthread` of at least 1 are
stored unchanged; for every source `NbprocSSL = max ssl 0` and
`Nbthread = max threads 1`. -/
theorem buildGlobalProc_passthrough (c : updater) (d : globalData) :
    (0 ≤ rawSSL d → (procsAfter c d).NbprocSSL = rawSSL d)
    ∧ (1 ≤ rawThreads d → (procsAfter c d).Nbthread = rawThreads d)
    ∧ (procsAfter c d).NbprocSSL = max (rawSSL d) 0
    ∧ (procsAfter c d).Nbthread = max (rawThreads d) 1 := by
  rw [proc_NbprocSSL, proc_Nbthread]
  exact ⟨fun h => max_eq_left h, fun h => max_eq_left h, rfl, rfl⟩

/-- C16: `BindprocBalance` is `"1"` for every source: the balance count is 1 when
the bind range is computed, so the test `balance > 1` of the range branch is
false. -/
theorem buildGlobalProc_bindprocBalance (c : updater) (d : globalData) :
    (procsAfter c d).BindprocBalance = "1" ∧ ¬ (procsAfter c d).NbprocBalance > 1 := by
  rw [proc_BindprocBalance, proc_NbprocBalance]
  exact ⟨rfl, by decide⟩

/-- For a raw `nbproc-ssl` below the largest `int`, `Nbproc` is at least 1 and at
least `NbprocSSL`. -/
theorem nbproc_pos_of_lt (c : updater) (d : globalData) (h : rawSSL d < maxInt) :
    (procsAfter c d).Nbproc ≥ 1 ∧ (procsAfter c d).Nbproc ≥ (procsAfter c d).NbprocSSL := by
  have hsum := goAdd_one_of_lt (max (rawSSL d) 0) (by omega) (by unfold maxInt at *; omega)
  rw [proc_Nbproc, proc_NbprocBalance, proc_NbprocSSL, hsum]
  omega

/-- C19: at raw `nbproc-ssl = 9223372036854775807`, a Go `int`, the wrapping sum
`balance + ssl` is `-9223372036854775808`: the stored `Nbproc` is below 1 and
below `NbprocSSL`. -/
theorem nbproc_overflow_eval :
    IsGoInt 9223372036854775807
    ∧ (procsOf 1 9223372036854775807 1).NbprocSSL = 9223372036854775807
    ∧ (procsOf 1 9223372036854775807 1).Nbproc = -9223372036854775808
    ∧ ¬ (procsOf 1 9223372036854775807 1).Nbproc ≥ 1
    ∧ ¬ (procsOf 1 9223372036854775807 1).Nbproc ≥ (procsOf 1 9223372036854775807 1).NbprocSSL := by
  decide

/-! ## Duration fields -/

theorem durationAfter_eq (c : updater) (d : globalData) :
    ∀ k ∈ durationKeys, durationAfter c d k = (c.validateTime (d.mapper.Get k)).1 := by
  intro k hk
  simp only [durationKeys, List.mem_cons, List.mem_singleton, List.not_mem_nil, or_false] at hk
  rcases hk with h | h | h | h | h | h | h | h | h | h | h | h | h <;> subst h <;> rfl

/-- C13: each of the ten `Timeout` fields and of the three `ModSecurity.Timeout`
fields is the string `validateTime` returns for the value of the field's own
key, whatever function `validateTime` is. So every property that all strings
returned by `validateTime` have, each duration field has; and a duration field
is the same for two sources and starting records that agree on the value of
its key, whatever the values of the other keys. -/
theorem duration_fields (c : updater) (d : globalData) :
    (c.buildGlobalTimeout d).2.global.Timeout.Client
      = (c.validateTime (d.mapper.Get Key.HostTimeoutClient)).1
    ∧ (c.buildGlobalTimeout d).2.global.Timeout.ClientFin
      = (c.validateTime (d.mapper.Get Key.HostTimeoutClientFin)).1
    ∧ (c.buildGlobalTimeout d).2.global.Timeout.Connect
      = (c.validateTime (d.mapper.Get Key.BackTimeoutConnect)).1
    ∧ (c.buildGlobalTimeout d).2.global.Timeout.HTTPRequest
      = (c.validateTime (d.mapper.Get Key.BackTimeoutHTTPRequest)).1
    ∧ (c.buildGlobalTimeout d).2.global.Timeout.KeepAlive
      = (c.validateTime (d.mapper.Get Key.BackTimeoutKeepAlive)).1
    ∧ (c.buildGlobalTimeout d).2.global.Timeout.Queue
      = (c.validateTime (d.mapper.Get Key.BackTimeoutQueue)).1
    ∧ (c.buildGlobalTimeout d).2.global.Timeout.Server
      = (c.validateTime (d.mapper.Get Key.BackTimeoutServer)).1
    ∧ (c.buildGlobalTimeout d).2.global.Timeout.ServerFin
      = (c.validateTime (d.mapper.Get Key.BackTimeoutServerFin)).1
    ∧ (c.buildGlobalTimeout d).2.global.Timeout.Stop
      = (c.validateTime (d.mapper.Get Key.GlobalTimeoutStop)).1
    ∧ (c.buildGlobalTimeout d).2.global.Timeout.Tunnel
      = (c.validateTime (d.mapper.Get Key.BackTimeoutTunnel)).1
    ∧ (c.buildGlobalModSecurity d).2.global.ModSecurity.Timeout.Hello
      = (c.validateTime (d.mapper.Get Key.GlobalModsecurityTimeoutHello)).1
    ∧ (c.buildGlobalModSecurity d).2.global.ModSecurity.Timeout.Idle
      = (c.validateTime (d.mapper.Get Key.GlobalModsecurityTimeoutIdle)).1
    ∧ (c.buildGlobalModSecurity d).2.global.ModSecurity.Timeout.Processing
      = (c.validateTime (d.mapper.Get Key.GlobalModsecurityTimeoutProcessing)).1
    ∧ (∀ P : String → Prop, (∀ cfg : ConfigValue, P (c.validateTime cfg).1) →
        ∀ k ∈ durationKeys, P (durationAfter c d k))
    ∧ (∀ (d' : globalData) (k : Key), k ∈ durationKeys → d'.mapper.Get k = d.mapper.Get k →
        durationAfter c d' k = durationAfter c d k)
    ∧ (∀ (d' : globalData) (k0 : Key), (∀ k : Key, k ≠ k0 → d'.mapper.Get k = d.mapper.Get k) →
        ∀ k ∈ durationKeys, k ≠ k0 → durationAfter c d' k = durationAfter c d k) := by
  refine ⟨rfl, rfl, rfl, rfl, rfl, rfl, rfl, rfl, rfl, rfl, rfl, rfl, rfl, ?_, ?_, ?_⟩
  · intro P hP k hk
    rw [durationAfter_eq c d k hk]
    exact hP _
  · intro d' k hk h
    rw [durationAfter_eq c d' k hk, durationAfter_eq c d k hk, h]
  · intro d' k0 h k hk hne
    rw [durationAfter_eq c d' k hk, durationAfter_eq c d k hk, h k hne]

/-! ## Helper lemmas: reading decimal text back -/

theorem digitChar_isDigit : ∀ m : Nat, m < 10 →
    (Nat.digitChar m).isDigit = true ∧ (Nat.digitChar m).toNat - 48 = m := by decide

theorem decimalValue_append_singleton (xs : List Char) (ch : Char) :
    decimalValue (xs ++ [ch]) = 10 * decimalValue xs + (ch.toNat - 48) := by
  simp [decimalValue, List.foldl_append]

theorem toDigitsCore_spec (fuel : Nat) : ∀ n : Nat, n < fuel →
    ∃ xs : List Char, xs ≠ [] ∧ xs.all Char.isDigit = true ∧ decimalValue xs = n
      ∧ ∀ ds : List Char, Nat.toDigitsCore 10 fuel n ds = xs ++ ds := by
  induction fuel with
  | zero =>
    intro n h
    omega
  | succ k ih =>
    intro n h
    have hd := digitChar_isDigit (n % 10) (Nat.mod_lt _ (by decide))
    by_cases h0 : n / 10 = 0
    · refine ⟨[Nat.digitChar (n % 10)], by simp, by simp [hd.1], ?_, ?_⟩
      · simp only [decimalValue, List.foldl_cons, List.foldl_nil, hd.2]
        omega
      · intro ds
        simp [Nat.toDigitsCore, h0]
    · obtain ⟨xs, hne, hall, hval, happ⟩ := ih (n / 10) (by omega)
      refine ⟨xs ++ [Nat.digitChar (n % 10)], by simp, ?_, ?_, ?_⟩
      · simp [List.all_append, hall, hd.1]
      · rw [decimalValue_append_singleton, hval, hd.2]
        omega
      · intro ds
        simp [Nat.toDigitsCore, h0, happ]

theorem parseDecimal_repr (n : Nat) : parseDecimal (Nat.repr n).data = some n := by
  obtain ⟨xs, hne, hall, hval, happ⟩ := toDigitsCore_spec (n + 1) n (by omega)
  have hx : (Nat.repr n).data = xs := by
    simp only [Nat.repr, Nat.toDigits, happ, List.append_nil]
    rfl
  rw [hx, parseDecimal, if_pos ⟨hne, hall⟩, hval]

theorem splitDash_no_dash (a : List Char) (h : ∀ ch ∈ a, ch ≠ '-') :
    splitDash a = (a, none) := by
  induction a with
  | nil => rfl
  | cons x xs ih =>
    have hx : x ≠ '-' := h x (by simp)
    have ih' := ih (fun ch hch => h ch (by simp [hch]))
    simp [splitDash, hx, ih']

theorem splitDash_append (a b : List Char) (h : ∀ ch ∈ a, ch ≠ '-') :
    splitDash (a ++ '-' :: b) = (a, some b) := by
  induction a with
  | nil => simp [splitDash]
  | cons x xs ih =>
    have hx : x ≠ '-' := h x (by simp)
    have ih' := ih (fun ch hch => h ch (by simp [hch]))
    simp [splitDash, hx, ih']

theorem fmtInt_nonneg_data (n : Int) (h : 0 ≤ n) : (fmtInt n).data = (Nat.repr n.natAbs).data := by
  unfold fmtInt
  rw [if_neg (by omega)]

theorem bindprocIndices_single (n : Int) (h : 0 ≤ n) : bindprocIndices (fmtInt n) = {n} := by
  unfold bindprocIndices
  rw [fmtInt_nonneg_data n h, splitDash_no_dash _ (repr_ne_dash _)]
  simp only [parseDecimal_repr]
  rw [Int.natAbs_of_nonneg h]

theorem bindprocIndices_range (lo hi : Int) (hlo : 0 ≤ lo) (hhi : 0 ≤ hi) :
    bindprocIndices (fmtInt lo ++ "-" ++ fmtInt hi) = Finset.Icc lo hi := by
  have hdata : (fmtInt lo ++ "-" ++ fmtInt hi).data
      = (Nat.repr lo.natAbs).data ++ '-' :: (Nat.repr hi.natAbs).data := by
    simp [String.data_append, fmtInt_nonneg_data lo hlo, fmtInt_nonneg_data hi hhi]
  unfold bindprocIndices
  rw [hdata, splitDash_append _ _ (repr_ne_dash _)]
  simp only [parseDecimal_repr]
  rw [Int.natAbs_of_nonneg hlo, Int.natAbs_of_nonneg hhi]

/-! ## Process topology: the indices of the bind ranges -/

/-- C17: for a raw `nbproc-ssl` of at least 1 and below the largest `int` (so that
`balance + ssl` does not overflow), the indices `BindprocSSL` denotes are
exactly `NbprocBalance + 1` to `Nbproc`; there are `NbprocSSL` of them, none
is an index of `BindprocBalance`, and the two sets together are `1` to
`Nbproc`. -/
theorem bindprocSSL_indices (c : updater) (d : globalData)
    (h1 : 1 ≤ rawSSL d) (h2 : rawSSL d < maxInt) :
    bindprocIndices (procsAfter c d).BindprocSSL
      = Finset.Icc ((procsAfter c d).NbprocBalance + 1) (procsAfter c d).Nbproc
    ∧ ((bindprocIndices (procsAfter c d).BindprocSSL).card : Int) = (procsAfter c d).NbprocSSL
    ∧ Disjoint (bindprocIndices (procsAfter c d).BindprocBalance)
        (bindprocIndices (procsAfter c d).BindprocSSL)
    ∧ bindprocIndices (procsAfter c d).BindprocBalance
        ∪ bindprocIndices (procsAfter c d).BindprocSSL
      = Finset.Icc 1 (procsAfter c d).Nbproc := by
  have hsum := goAdd_one_of_lt (max (rawSSL d) 0) (by omega) (by unfold maxInt at *; omega)
  have hmax : max (rawSSL d) 0 = rawSSL d := max_eq_left (by omega)
  have hbal : bindprocIndices (procsAfter c d).BindprocBalance = {1} := by
    rw [proc_BindprocBalance]
    exact bindprocIndices_single 1 (by decide)
  have hssl : bindprocIndices (procsAfter c d).BindprocSSL = Finset.Icc 2 (1 + rawSSL d) := by
    rw [proc_BindprocSSL, proc_Nbproc, proc_NbprocBalance, proc_NbprocSSL, hsum, hmax,
      if_neg (by omega)]
    split_ifs with hone
    · rw [hone]
      exact bindprocIndices_single 2 (by decide)
    · exact bindprocIndices_range 2 (1 + rawSSL d) (by decide) (by omega)
  rw [hbal, hssl, proc_Nbproc, proc_NbprocBalance, proc_NbprocSSL, hsum, hmax]
  refine ⟨rfl, ?_, ?_, ?_⟩
  · rw [Int.card_Icc]
    omega
  · rw [Finset.disjoint_singleton_left, Finset.mem_Icc]
    omega
  · ext i
    simp only [Finset.mem_union, Finset.mem_singleton, Finset.mem_Icc]
    omega

/-- C17, at a concrete source: raw balance 1, ssl 2, threads 1, where
`BindprocBalance` is `"1"` and `BindprocSSL` is `"2-3"`. -/
theorem bindprocSSL_indices_witness :
    (1 ≤ rawSSL { global := Global.zero, mapper := procMapper 1 2 1 }
      ∧ rawSSL { global := Global.zero, mapper := procMapper 1 2 1 } < maxInt)
    ∧ (procsOf 1 2 1).BindprocSSL = "2-3"
    ∧ bindprocIndices (procsOf 1 2 1).BindprocSSL
        = Finset.Icc ((procsOf 1 2 1).NbprocBalance + 1) (procsOf 1 2 1).Nbproc
    ∧ ((bindprocIndices (procsOf 1 2 1).BindprocSSL).card : Int) = (procsOf 1 2 1).NbprocSSL
    ∧ bindprocIndices (procsOf 1 2 1).BindprocBalance ∪ bindprocIndices (procsOf 1 2 1).BindprocSSL
        = Finset.Icc 1 (procsOf 1 2 1).Nbproc :=
  ⟨by decide, by decide,
   (bindprocSSL_indices (newUpdater emptyCache)
      { global := Global.zero, mapper := procMapper 1 2 1 } (by decide) (by decide)).1,
   (bindprocSSL_indices (newUpdater emptyCache)
      { global := Global.zero, mapper := procMapper 1 2 1 } (by decide) (by decide)).2.1,
   (bindprocSSL_indices (newUpdater emptyCache)
      { global := Global.zero, mapper := procMapper 1 2 1 } (by decide) (by decide)).2.2.2⟩

end HaproxyIngress
